import Mathlib

/-!
Shallow embedding of the motion-triggered media-capture core of the
onvif-bot repository (files onvif-bot.py and custom_pullpoint_manager.py),
together with theorems settling the specification claims about it.

The embedding mirrors the Python source:
* `StreamUnit` models an `av` packet (key flag, optional dts/pts, duration,
  opaque payload identity).
* `VideoStreamState` models the mutable state of one `VideoStream` object
  (the `Queue` buffer as a list with the front holding the oldest unit, the
  `latest_keyframe` reference, and the `video_in_progress` single-flight flag).
* `streamCaptureStep` is the per-packet body of `VideoStream.stream_capture`.
* `video_snapshot` is `VideoStream.video_snapshot`, with an `AvEnv` record
  saying which external `av` calls raise, so that exception paths of the
  Python code become explicit result constructors.
* `processBatch` is the event-batch handling of `CameraInstance.run`, and
  `grabvideoCalls` is `TelegramBot.grabvideo`.
* The subscription-lifecycle definitions embed
  `CustomPullPointManager._start`; the parts of the onvif library it calls
  (`has_broken_relative_time`, `get_next_termination_time`, the renew loop)
  are not in this repository and are modelled from the spec.
-/

namespace OnvifBot

/-- One elementary-stream unit as delivered by the transport (an `av` packet).
`payload` is an opaque identity for the compressed bytes. -/
structure StreamUnit where
  isKeyUnit : Bool
  dts : Option Int
  pts : Option Int
  duration : Int
  payload : Nat
deriving DecidableEq, Repr

/-- Mutable state of one `VideoStream` object: the `Queue` buffer (front =
oldest), `latest_keyframe`, and the `video_in_progress` single-flight flag. -/
structure VideoStreamState where
  buffer : List StreamUnit
  latest_keyframe : Option StreamUnit
  video_in_progress : Bool
deriving DecidableEq, Repr

/-- State of a `VideoStream` right after `__init__`: empty buffer, no
keyframe seen, no extraction in flight. -/
def initState : VideoStreamState :=
  { buffer := [], latest_keyframe := none, video_in_progress := false }

/-- Buffer capacity computed once per (re)connection in `stream_capture`:
`queue_size = 200` by default, overridden to `int(fps * 5)` when
`fps > 0 and fps < 40` (five seconds of history at the nominal rate).
An unknown rate is modelled as a non-positive `fps`. -/
def queueSize (fps : ℚ) : Nat :=
  if 0 < fps ∧ fps < 40 then (⌊fps * 5⌋).toNat else 200

/-- The eviction `while` loop of `stream_capture`:
`while buffer.qsize() >= queue_size and video_in_progress is False:
buffer.get()` — drop the oldest unit from the front until the size is
below `queue_size`.  (The `video_in_progress` conjunct is handled by the
caller `streamCaptureStep`, where the flag is fixed for the step.) -/
def evictOldest (qs : Nat) : List StreamUnit → List StreamUnit
  | [] => []
  | u :: rest => if qs ≤ rest.length + 1 then evictOldest qs rest else u :: rest

/-- Per-packet body of the `stream_capture` demux loop: run the eviction
loop (skipped entirely when `video_in_progress` is true), discard the packet
if it has no decode timestamp, otherwise update `latest_keyframe` for key
units and append the packet to the buffer. -/
def streamCaptureStep (qs : Nat) (s : VideoStreamState) (u : StreamUnit) :
    VideoStreamState :=
  let buf := if s.video_in_progress then s.buffer else evictOldest qs s.buffer
  if u.dts.isNone then { s with buffer := buf }
  else
    { s with
      buffer := buf ++ [u]
      latest_keyframe := if u.isKeyUnit then some u else s.latest_keyframe }

/-- The `stream_capture` demux loop over a whole sequence of packets, with
the `video_in_progress` flag as left by the state at each step. -/
def streamCaptureRun (qs : Nat) (s : VideoStreamState)
    (us : List StreamUnit) : VideoStreamState :=
  us.foldl (streamCaptureStep qs) s

/-- The demux loop where each arriving packet is paired with the value the
`video_in_progress` flag happens to have when it is processed (the flag is
written concurrently by `video_snapshot`). -/
def streamCaptureRunF (qs : Nat) :
    VideoStreamState → List (StreamUnit × Bool) → VideoStreamState
  | s, [] => s
  | s, (u, f) :: rest =>
      streamCaptureRunF qs
        (streamCaptureStep qs { s with video_in_progress := f } u) rest

/-- The packets of an arrival sequence that survive the
`if packet.dts is None: continue` filter of `stream_capture`. -/
def usableUnits (us : List StreamUnit) : List StreamUnit :=
  us.filter fun u => u.dts.isSome

/-- Which external `av` calls made by `video_snapshot` raise: opening the
output container, adding the output stream from the input template, muxing
a given packet, and closing the container. -/
structure AvEnv where
  openRaises : Bool
  addStreamRaises : Bool
  muxRaises : StreamUnit → Bool
  closeRaises : Bool

/-- The benign environment: no external `av` call raises. -/
def envOk : AvEnv :=
  { openRaises := false, addStreamRaises := false,
    muxRaises := fun _ => false, closeRaises := false }

/-- Python's truth test `if self.buffer:` applied to a `queue.Queue` object:
`Queue` defines neither `__bool__` nor `__len__`, so the object is always
truthy, even when it holds no items. -/
def queueObjectIsTruthy : Bool := true

/-- The packet loop of `video_snapshot` over `list(self.buffer.queue)`:
skip leading packets until the first key packet, then for each remaining
packet set `pts_ref += packet.duration; packet.pts = pts_ref;
packet.dts = packet.pts` (mutating the packet object shared with the
buffer) and mux it, swallowing per-packet mux exceptions.  Returns the
buffer contents after the in-place mutations, paired with the list of
packets actually written to the container. -/
def muxPass (env : AvEnv) (ptsRef : Int) (firstPacket : Bool) :
    List StreamUnit → List StreamUnit × List StreamUnit
  | [] => ([], [])
  | u :: rest =>
    if firstPacket && !u.isKeyUnit then
      let bo := muxPass env ptsRef firstPacket rest
      (u :: bo.1, bo.2)
    else
      let p := ptsRef + u.duration
      let u' := { u with pts := some p, dts := some p }
      let bo := muxPass env p false rest
      (u' :: bo.1, if env.muxRaises u then bo.2 else u' :: bo.2)

/-- Outcome of one call to `video_snapshot`: the guard returned immediately
(Python `return`, i.e. `None`), the call returned a value (`ok`), or an
uncaught exception propagated out of the call (`raised`). -/
inductive SnapResult where
  | noStart
  | ok (clip : Option (List StreamUnit))
  | raised
deriving DecidableEq, Repr

/-- `VideoStream.video_snapshot`: the single-flight guard, the flag set,
the container build (each fallible `av` call taken from `env`), the
timestamp-normalisation mux pass, the close, and the flag clear.  The
Python code has no `try/finally`, so the flag-clearing statement is only
reached on the paths that reach the end of the function body. -/
def video_snapshot (env : AvEnv) (s : VideoStreamState) :
    VideoStreamState × SnapResult :=
  if s.video_in_progress then (s, .noStart)
  else
    let s1 := { s with video_in_progress := true }
    if env.openRaises then (s1, .raised)
    else if env.addStreamRaises then (s1, .raised)
    else
      if queueObjectIsTruthy then
        let bo := muxPass env 0 true s1.buffer
        let s2 := { s1 with buffer := bo.1 }
        if env.closeRaises then (s2, .raised)
        else ({ s2 with video_in_progress := false }, .ok (some bo.2))
      else ({ s1 with video_in_progress := false }, .ok none)

/-- The value of the Python call expression `await stream.video_snapshot()`
as seen by a caller: `None` when the guard returned early, the returned
clip otherwise (a `raised` outcome never yields a value). -/
def clipOf : SnapResult → Option (List StreamUnit)
  | .noStart => none
  | .ok c => c
  | .raised => none

/-- The packets written to the output container by one `video_snapshot`
mux pass over a buffer snapshot. -/
def writtenPackets (env : AvEnv) (buf : List StreamUnit) : List StreamUnit :=
  (muxPass env 0 true buf).2

/-- Reference form of the timestamp assignment: give each unit the
presentation timestamp `ptsRef + duration` accumulated left to right, with
decode timestamp equal to presentation timestamp. -/
def assignTs (ptsRef : Int) : List StreamUnit → List StreamUnit
  | [] => []
  | u :: rest =>
    let p := ptsRef + u.duration
    { u with pts := some p, dts := some p } :: assignTs p rest

/-- The presentation timestamps actually carried by a list of units. -/
def ptsVals (l : List StreamUnit) : List Int :=
  l.filterMap fun u => u.pts

/-- An outbound call made by a Camera Session or command handler on its
notification sink (`bot.send_message` / `bot.send_video`).  `sendVideo`
carries the exact Python argument, which may be `None`. -/
inductive BotCall where
  | sendMessage (cameraId : Nat)
  | sendVideo (payload : Option (List StreamUnit))
deriving DecidableEq, Repr

/-- The value `mess_tree` holds after the message loop of
`CameraInstance.run`: initialised to `""` and overwritten by the
motion-indicator value of each message in the batch, so only the last
message's value survives. -/
def messTree (batch : List String) : String :=
  batch.foldl (fun _ v => v) ""

/-- One iteration of the event loop of `CameraInstance.run` after a batch
of messages was pulled: compute `mess_tree`, and if it equals `"true"`
send the motion message and then, when an rtsp stream is configured, call
`video_snapshot` and pass its result (checked for nothing) straight to
`send_video`.  Returns the updated stream state and the sink calls made;
if `video_snapshot` raises, the exception is caught by the loop's
`except` clause, so `send_video` is simply not called. -/
def processBatch (env : AvEnv) (cid : Nat) (rtsp : Option VideoStreamState)
    (batch : List String) : Option VideoStreamState × List BotCall :=
  if messTree batch = "true" then
    match rtsp with
    | none => (none, [.sendMessage cid])
    | some s =>
      let sr := video_snapshot env s
      match sr.2 with
      | .raised => (some sr.1, [.sendMessage cid])
      | r => (some sr.1, [.sendMessage cid, .sendVideo (clipOf r)])
  else (rtsp, [])

/-- `TelegramBot.grabvideo`: for each registered stream, take a video
snapshot and send it only if it is not `None`. -/
def grabvideoCalls (env : AvEnv) (streams : List VideoStreamState) :
    List BotCall :=
  streams.flatMap fun s =>
    match clipOf (video_snapshot env s).2 with
    | none => []
    | some v => [.sendVideo (some v)]

/-- Timestamp mode used in a subscription or renewal request. -/
inductive TsMode where
  | relative
  | absolute
deriving DecidableEq, Repr

/-- The per-device state the onvif library keeps about termination-time
semantics.  Modelled from the spec: the manager "remembers to use absolute
timestamps for all future renewals against this device". -/
structure DeviceState where
  usesAbsoluteTime : Bool
deriving DecidableEq, Repr

/-- Modelled from the spec: the onvif library's
`device.has_broken_relative_time(interval, CurrentTime, TerminationTime)`
is not in this repository; per the spec a device is broken when the echoed
termination time "is not `currentTime + requestedInterval`" beyond a
tolerance. -/
def hasBrokenRelativeTime (tol interval ct tt : Int) : Bool :=
  tol < |tt - (ct + interval)|

/-- Modelled from the spec: checking a device for broken relative time also
flags it ("the manager flags the device as using broken relative
timestamps ... and remembers to use absolute timestamps for all future
renewals"). -/
def deviceCheckBroken (tol : Int) (dev : DeviceState) (interval ct tt : Int) :
    DeviceState × Bool :=
  let broken := hasBrokenRelativeTime tol interval ct tt
  ({ usesAbsoluteTime := dev.usesAbsoluteTime || broken }, broken)

/-- Modelled from the spec: the onvif library's
`device.get_next_termination_time(interval)` is not in this repository;
per the spec it yields "an absolute termination timestamp (now + interval,
in absolute clock terms) instead of a relative duration" once the device
is flagged, and a relative duration otherwise. -/
def getNextTerminationTime (dev : DeviceState) (now interval : Int) :
    TsMode × Int :=
  if dev.usesAbsoluteTime then (.absolute, now + interval) else (.relative, interval)

/-- Result of `CustomPullPointManager._start`: the device state afterwards
and the corrective renewal requests issued during start. -/
structure StartResult where
  dev : DeviceState
  correctiveRenewals : List (TsMode × Int)
deriving DecidableEq, Repr

/-- `CustomPullPointManager._start` after the subscription has been created
and the device echoed `ct`/`tt`: check `has_broken_relative_time` and, when
it holds, issue exactly one corrective `Renew` with
`get_next_termination_time` (absolute, since the device is now flagged). -/
def managerStart (tol : Int) (dev0 : DeviceState) (interval now ct tt : Int) :
    StartResult :=
  let db := deviceCheckBroken tol dev0 interval ct tt
  if db.2 then
    { dev := db.1, correctiveRenewals := [getNextTerminationTime db.1 now interval] }
  else
    { dev := db.1, correctiveRenewals := [] }

/-- Modelled from the spec: a later `renew` for the session "re-issues the
lease using whichever timestamp mode (relative/absolute) was established
at `start`" — it requests `get_next_termination_time` and leaves the
device flag unchanged. -/
def managerRenew (dev : DeviceState) (now interval : Int) :
    DeviceState × (TsMode × Int) :=
  (dev, getNextTerminationTime dev now interval)

/-- The timestamp modes of `n` successive renewals after start. -/
def renewModes (dev : DeviceState) (now interval : Int) : Nat → List TsMode
  | 0 => []
  | n + 1 =>
    let r := managerRenew dev now interval
    r.2.1 :: renewModes r.1 now interval n

/-- A unit that is not a key unit but has a decode timestamp. -/
def noKeyUnit : StreamUnit :=
  { isKeyUnit := false, dts := some 7, pts := some 7, duration := 1, payload := 9 }

/-- A concrete four-unit buffer: one leading non-key unit, then a key unit
and two trailing delta units. -/
def demoBuf : List StreamUnit :=
  [{ isKeyUnit := false, dts := some 0, pts := some 0, duration := 2, payload := 0 },
   { isKeyUnit := true, dts := some 2, pts := some 2, duration := 3, payload := 1 },
   { isKeyUnit := false, dts := some 5, pts := some 5, duration := 0, payload := 2 },
   { isKeyUnit := false, dts := some 5, pts := some 5, duration := 4, payload := 3 }]

/-- A stream state with an extraction already in flight. -/
def busyState : VideoStreamState :=
  { buffer := [noKeyUnit], latest_keyframe := none, video_in_progress := true }

/-- Environment in which opening the output container raises. -/
def envOpenRaises : AvEnv := { envOk with openRaises := true }

/-- Environment in which closing the output container raises. -/
def envCloseRaises : AvEnv := { envOk with closeRaises := true }

/-- Environment in which every per-packet mux call raises. -/
def envMuxRaises : AvEnv := { envOk with muxRaises := fun _ => true }

/- Helper lemmas about the mux pass. -/

theorem envOk_muxRaises (u : StreamUnit) : envOk.muxRaises u = false := rfl

theorem muxPass_snd_notFirst (l : List StreamUnit) (r : Int) :
    (muxPass envOk r false l).2 = assignTs r l := by
  induction l generalizing r with
  | nil => rfl
  | cons u rest ih => simp [muxPass, assignTs, envOk_muxRaises, ih]

theorem muxPass_snd_first (l : List StreamUnit) (r : Int) :
    (muxPass envOk r true l).2
      = assignTs r (l.dropWhile fun u => !u.isKeyUnit) := by
  induction l generalizing r with
  | nil => rfl
  | cons u rest ih =>
    cases hk : u.isKeyUnit with
    | true =>
      simp [muxPass, assignTs, List.dropWhile, hk, envOk_muxRaises,
        muxPass_snd_notFirst]
    | false => simpa [muxPass, List.dropWhile, hk] using ih r

theorem assignTs_dts_eq_pts (l : List StreamUnit) (r : Int) :
    ∀ u ∈ assignTs r l, u.dts = u.pts := by
  induction l generalizing r with
  | nil => simp [assignTs]
  | cons u rest ih =>
    simp only [assignTs, List.mem_cons]
    rintro v (rfl | hv)
    · rfl
    · exact ih _ v hv

theorem chain_ptsVals_assignTs (l : List StreamUnit) (r : Int)
    (hd : ∀ u ∈ l, 0 ≤ u.duration) :
    List.Chain (· ≤ ·) r (ptsVals (assignTs r l)) := by
  induction l generalizing r with
  | nil => simp [assignTs, ptsVals]
  | cons u rest ih =>
    have h0 : 0 ≤ u.duration := hd u (by simp)
    have hrw : ptsVals (assignTs r (u :: rest))
        = (r + u.duration) :: ptsVals (assignTs (r + u.duration) rest) := by
      simp [assignTs, ptsVals]
    rw [hrw]
    exact List.Chain.cons (by omega)
      (ih (r + u.duration) fun v hv => hd v (by simp [hv]))

theorem chain_imp_chain' {r : Int} {l : List Int}
    (h : List.Chain (· ≤ ·) r l) : List.Chain' (· ≤ ·) l := by
  cases l with
  | nil => simp
  | cons x xs => exact (List.chain_cons.mp h).2

theorem ptsVals_assignTs_head (l : List StreamUnit) (r : Int) :
    (ptsVals (assignTs r l)).head? = l.head?.map fun u => r + u.duration := by
  cases l <;> simp [assignTs, ptsVals]

/-- Claim C1: the units written to the output by `video_snapshot` are
exactly the snapshot's units from the first key unit onward, in snapshot
order, each given presentation timestamp accumulated from unit durations
(`pts_ref += duration`, so the first included unit starts at its own
duration), with decode timestamp equal to presentation timestamp; when all
durations are non-negative the written timestamps are monotonically
non-decreasing. -/
theorem extractClip_timestamps (buf : List StreamUnit)
    (hd : ∀ u ∈ buf, 0 ≤ u.duration) :
    writtenPackets envOk buf
        = assignTs 0 (buf.dropWhile fun u => !u.isKeyUnit)
      ∧ (∀ u ∈ writtenPackets envOk buf, u.dts = u.pts)
      ∧ List.Chain' (· ≤ ·) (ptsVals (writtenPackets envOk buf))
      ∧ (ptsVals (writtenPackets envOk buf)).head?
          = (buf.dropWhile fun u => !u.isKeyUnit).head?.map
              fun u => u.duration := by
  have hdrop : ∀ u ∈ buf.dropWhile (fun u => !u.isKeyUnit), 0 ≤ u.duration :=
    fun u hu => hd u (List.dropWhile_sublist _ |>.subset hu)
  have hw : writtenPackets envOk buf
      = assignTs 0 (buf.dropWhile fun u => !u.isKeyUnit) :=
    muxPass_snd_first buf 0
  refine ⟨hw, ?_, ?_, ?_⟩
  · rw [hw]; exact assignTs_dts_eq_pts _ 0
  · rw [hw]
    exact chain_imp_chain' (chain_ptsVals_assignTs _ 0 hdrop)
  · rw [hw, ptsVals_assignTs_head]
    cases buf.dropWhile (fun u => !u.isKeyUnit) <;> simp

/-- Witness for C1 at the concrete buffer `demoBuf`. -/
theorem extractClip_timestamps_witness :
    (∀ u ∈ demoBuf, 0 ≤ u.duration)
      ∧ (writtenPackets envOk demoBuf
            = assignTs 0 (demoBuf.dropWhile fun u => !u.isKeyUnit)
          ∧ (∀ u ∈ writtenPackets envOk demoBuf, u.dts = u.pts)
          ∧ List.Chain' (· ≤ ·) (ptsVals (writtenPackets envOk demoBuf))
          ∧ (ptsVals (writtenPackets envOk demoBuf)).head?
              = (demoBuf.dropWhile fun u => !u.isKeyUnit).head?.map
                  fun u => u.duration) :=
  ⟨by decide, extractClip_timestamps demoBuf (by decide)⟩

/-- Claim C2 (code bug demonstration): `if self.buffer:` tests the
`queue.Queue` object, which is always truthy, so `video_snapshot` on an
empty buffer — and on a buffer with no key unit — returns a clip object
(an empty container) instead of the `None` promised by the claim and by
the function's own docstring. -/
theorem video_snapshot_no_footage_returns_clip :
    (video_snapshot envOk initState).2 = .ok (some [])
      ∧ (video_snapshot envOk
            { buffer := [noKeyUnit], latest_keyframe := none,
              video_in_progress := false }).2 = .ok (some [])
      ∧ clipOf (video_snapshot envOk initState).2 ≠ none := by decide

/-- Claim C3: when an extraction is already in flight, a second call to
`video_snapshot` returns immediately with no effect — the state (buffer
included) is unchanged, no timestamp pass runs, and no clip is produced. -/
theorem video_snapshot_single_flight (env : AvEnv) (s : VideoStreamState)
    (h : s.video_in_progress = true) :
    video_snapshot env s = (s, .noStart)
      ∧ (video_snapshot env s).1.buffer = s.buffer
      ∧ clipOf (video_snapshot env s).2 = none := by
  simp [video_snapshot, h, clipOf]

/-- Witness for C3 at the concrete in-flight state `busyState`. -/
theorem video_snapshot_single_flight_witness :
    busyState.video_in_progress = true
      ∧ (video_snapshot envOk busyState = (busyState, .noStart)
          ∧ (video_snapshot envOk busyState).1.buffer = busyState.buffer
          ∧ clipOf (video_snapshot envOk busyState).2 = none) :=
  ⟨rfl, video_snapshot_single_flight envOk busyState rfl⟩

/-- Claim C4 (code bug demonstration): `video_snapshot` has no
`try/finally`, so when opening the output container (or closing it)
raises, the exception propagates with `video_in_progress` still `true` —
the in-flight flag is leaked, while the per-packet mux exceptions of the
claim's happy path are indeed caught and do clear the flag. -/
theorem video_snapshot_flag_leak :
    (video_snapshot envOpenRaises initState).2 = .raised
      ∧ (video_snapshot envOpenRaises initState).1.video_in_progress = true
      ∧ (video_snapshot envCloseRaises initState).2 = .raised
      ∧ (video_snapshot envCloseRaises initState).1.video_in_progress = true
      ∧ (video_snapshot envMuxRaises initState).1.video_in_progress = false
      ∧ (video_snapshot envMuxRaises initState).2 = .ok (some []) := by decide

/- Helper lemmas about the eviction loop and the ingest step. -/

/-- What one ingest step appends to the buffer: nothing for a packet with
no decode timestamp, the packet itself otherwise. -/
def ingestAppend (u : StreamUnit) : List StreamUnit :=
  if u.dts.isNone then [] else [u]

theorem ingestAppend_length_le (u : StreamUnit) :
    (ingestAppend u).length ≤ 1 := by
  cases hdts : u.dts.isNone <;> simp [ingestAppend, hdts]

theorem streamCaptureStep_buffer (qs : Nat) (s : VideoStreamState)
    (u : StreamUnit) :
    (streamCaptureStep qs s u).buffer
      = (if s.video_in_progress then s.buffer else evictOldest qs s.buffer)
          ++ ingestAppend u := by
  cases hdts : u.dts.isNone <;> simp [streamCaptureStep, ingestAppend, hdts]

theorem evictOldest_eq_self (qs : Nat) (l : List StreamUnit)
    (h : l.length < qs) : evictOldest qs l = l := by
  cases l with
  | nil => rfl
  | cons u rest =>
    rw [evictOldest, if_neg]
    simp only [List.length_cons] at h
    omega

theorem evictOldest_eq_drop (qs : Nat) (l : List StreamUnit)
    (h1 : 1 ≤ qs) (h2 : qs ≤ l.length) :
    evictOldest qs l = l.drop (l.length + 1 - qs) := by
  induction l with
  | nil => simp at h2; omega
  | cons u rest ih =>
    simp only [List.length_cons] at h2
    rw [evictOldest, if_pos h2]
    by_cases hr : qs ≤ rest.length
    · rw [ih hr]
      have hidx : (u :: rest).length + 1 - qs = (rest.length + 1 - qs) + 1 := by
        simp only [List.length_cons]; omega
      rw [hidx, List.drop_succ_cons]
    · have hlen : rest.length + 1 = qs := by omega
      rw [evictOldest_eq_self qs rest (by omega)]
      have hidx : (u :: rest).length + 1 - qs = 1 := by
        simp only [List.length_cons]; omega
      rw [hidx, List.drop_succ_cons, List.drop_zero]

theorem evictOldest_suffix (qs : Nat) (l : List StreamUnit) :
    evictOldest qs l <:+ l := by
  induction l with
  | nil => exact List.suffix_rfl
  | cons u rest ih =>
    rw [evictOldest]
    by_cases h : qs ≤ rest.length + 1
    · rw [if_pos h]
      exact ih.trans (List.suffix_cons u rest)
    · rw [if_neg h]

theorem evictOldest_length_lt (qs : Nat) (h : 1 ≤ qs) (l : List StreamUnit) :
    (evictOldest qs l).length < qs := by
  induction l with
  | nil => simpa [evictOldest] using h
  | cons u rest ih =>
    rw [evictOldest]
    by_cases hc : qs ≤ rest.length + 1
    · rw [if_pos hc]; exact ih
    · rw [if_neg hc]; simp only [List.length_cons]; omega

/-- Claim C5: the ingest loop evicts the oldest unit only when the buffer
is at or above capacity and no extraction is in flight; while the flag is
held eviction is skipped (the unit is still appended, so the buffer may
exceed its nominal capacity), and below capacity nothing is evicted. -/
theorem eviction_policy (qs : Nat) (s : VideoStreamState) (u : StreamUnit) :
    (s.video_in_progress = true →
        (streamCaptureStep qs s u).buffer = s.buffer ++ ingestAppend u)
      ∧ (s.video_in_progress = false → s.buffer.length < qs →
          (streamCaptureStep qs s u).buffer = s.buffer ++ ingestAppend u)
      ∧ (s.video_in_progress = false → 1 ≤ qs → qs ≤ s.buffer.length →
          (streamCaptureStep qs s u).buffer
            = s.buffer.drop (s.buffer.length + 1 - qs) ++ ingestAppend u) := by
  refine ⟨fun h => ?_, fun h hlt => ?_, fun h h1 hge => ?_⟩
  · rw [streamCaptureStep_buffer, if_pos h]
  · rw [streamCaptureStep_buffer, if_neg (by simp [h]),
      evictOldest_eq_self qs s.buffer hlt]
  · rw [streamCaptureStep_buffer, if_neg (by simp [h]),
      evictOldest_eq_drop qs s.buffer h1 hge]

/-- A two-unit buffer with no extraction in flight. -/
def fullState : VideoStreamState :=
  { buffer := [noKeyUnit, noKeyUnit], latest_keyframe := none,
    video_in_progress := false }

/-- Witness for C5: at capacity 2 with no extraction in flight, `fullState`
evicts its oldest unit before appending. -/
theorem eviction_policy_witness :
    fullState.video_in_progress = false
      ∧ 1 ≤ 2
      ∧ 2 ≤ fullState.buffer.length
      ∧ (streamCaptureStep 2 fullState noKeyUnit).buffer
          = fullState.buffer.drop (fullState.buffer.length + 1 - 2)
              ++ ingestAppend noKeyUnit :=
  ⟨rfl, by decide, by decide,
    (eviction_policy 2 fullState noKeyUnit).2.2 rfl (by decide) (by decide)⟩

/-- The `i`-th unit of the capacity scenario: a key unit first, then delta
units, every one with a decode timestamp. -/
def mkUnit (i : Nat) : StreamUnit :=
  { isKeyUnit := i == 0, dts := some i, pts := some i, duration := 1,
    payload := i }

/-- The 130 sequential units of the capacity scenario. -/
def feed130 : List StreamUnit := (List.range 130).map mkUnit

set_option maxRecDepth 100000 in
/-- Claim C6: a 25 fps descriptor yields capacity `int(25 * 5) = 125`, an
unknown (non-positive) or implausible (at least 40 units/sec) rate yields
the fixed fallback 200, and feeding 130 sequential units — the first one a
key unit, no extraction in flight — leaves exactly the 125 most recent
units in the buffer, in order, with the oldest 5 evicted. -/
theorem capacity_and_retention :
    queueSize 25 = 125
      ∧ queueSize 0 = 200
      ∧ queueSize 40 = 200
      ∧ feed130.length = 130
      ∧ feed130.head?.map (fun u => u.isKeyUnit) = some true
      ∧ (streamCaptureRun 125 initState feed130).buffer = feed130.drop 5
      ∧ (feed130.drop 5).length = 125 := by
  refine ⟨?_, ?_, ?_, by decide, by decide, by decide, by decide⟩
  · norm_num [queueSize]; decide
  · norm_num [queueSize]
  · norm_num [queueSize]

/- Helper lemmas for the snapshot-suffix invariant. -/

theorem usableUnits_cons (u : StreamUnit) (us : List StreamUnit) :
    usableUnits (u :: us) = ingestAppend u ++ usableUnits us := by
  cases hdts : u.dts <;>
    simp [usableUnits, ingestAppend, List.filter_cons, hdts]

theorem streamCaptureStep_suffix (qs : Nat) (s : VideoStreamState)
    (u : StreamUnit) (acc : List StreamUnit) (h : s.buffer <:+ acc) :
    (streamCaptureStep qs s u).buffer <:+ acc ++ ingestAppend u := by
  rw [streamCaptureStep_buffer]
  have hevict :
      (if s.video_in_progress then s.buffer else evictOldest qs s.buffer)
        <:+ acc := by
    split
    · exact h
    · exact (evictOldest_suffix qs s.buffer).trans h
  obtain ⟨p, hp⟩ := hevict
  exact ⟨p, by rw [← List.append_assoc, hp]⟩

theorem streamCaptureRunF_suffix (qs : Nat) (ufs : List (StreamUnit × Bool)) :
    ∀ (s : VideoStreamState) (acc : List StreamUnit), s.buffer <:+ acc →
      (streamCaptureRunF qs s ufs).buffer
        <:+ acc ++ usableUnits (ufs.map Prod.fst) := by
  induction ufs with
  | nil =>
    intro s acc h
    simpa [streamCaptureRunF, usableUnits] using h
  | cons p rest ih =>
    intro s acc h
    obtain ⟨u, f⟩ := p
    have h1 : ({ s with video_in_progress := f } : VideoStreamState).buffer
        <:+ acc := h
    have h2 := streamCaptureStep_suffix qs { s with video_in_progress := f }
      u acc h1
    have h3 := ih _ (acc ++ ingestAppend u) h2
    simpa [streamCaptureRunF, usableUnits_cons, List.append_assoc] using h3

theorem streamCaptureStep_length_le (qs : Nat) (h1 : 1 ≤ qs)
    (s : VideoStreamState) (u : StreamUnit)
    (hp : s.video_in_progress = false) :
    (streamCaptureStep qs s u).buffer.length ≤ qs := by
  rw [streamCaptureStep_buffer, if_neg (by simp [hp])]
  have hev := evictOldest_length_lt qs h1 s.buffer
  have hap := ingestAppend_length_le u
  simp only [List.length_append]
  omega

theorem streamCaptureRunF_length (qs : Nat) (h1 : 1 ≤ qs) :
    ∀ (ufs : List (StreamUnit × Bool)), (∀ p ∈ ufs, p.2 = false) →
      ∀ s : VideoStreamState, s.buffer.length ≤ qs →
        (streamCaptureRunF qs s ufs).buffer.length ≤ qs := by
  intro ufs
  induction ufs with
  | nil => intro _ s h; simpa [streamCaptureRunF] using h
  | cons p rest ih =>
    intro hf s h
    obtain ⟨u, f⟩ := p
    have hfu : f = false := hf (u, f) (by simp)
    subst hfu
    exact ih (fun q hq => hf q (by simp [hq])) _
      (streamCaptureStep_length_le qs h1 _ u rfl)

/-- Claim C7: starting from the initial (empty) state, whatever values the
in-flight flag takes while units arrive, the buffer is a contiguous suffix
of the usable received units in arrival order, and when no extraction was
in flight at any step its length is bounded by the computed capacity. -/
theorem snapshot_contiguous_suffix (qs : Nat)
    (ufs : List (StreamUnit × Bool)) (h1 : 1 ≤ qs) :
    (streamCaptureRunF qs initState ufs).buffer
        <:+ usableUnits (ufs.map Prod.fst)
      ∧ ((∀ p ∈ ufs, p.2 = false) →
          (streamCaptureRunF qs initState ufs).buffer.length ≤ qs) := by
  constructor
  · simpa using streamCaptureRunF_suffix qs ufs initState []
      (by simp [initState])
  · intro hf
    exact streamCaptureRunF_length qs h1 ufs hf initState
      (by simp [initState])

/-- A concrete arrival sequence for the C7 witness: three units, the middle
one arriving while an extraction is in flight. -/
def demoArrivals : List (StreamUnit × Bool) :=
  [(mkUnit 0, false), (mkUnit 1, true), (mkUnit 2, false)]

/-- Witness for C7 at the concrete arrival sequence `demoArrivals`. -/
theorem snapshot_contiguous_suffix_witness :
    1 ≤ 2
      ∧ ((streamCaptureRunF 2 initState demoArrivals).buffer
            <:+ usableUnits (demoArrivals.map Prod.fst)
          ∧ ((∀ p ∈ demoArrivals, p.2 = false) →
              (streamCaptureRunF 2 initState demoArrivals).buffer.length ≤ 2)) :=
  ⟨by decide, snapshot_contiguous_suffix 2 demoArrivals (by decide)⟩

/- Helper lemmas for the Camera Session event loop. -/

theorem video_snapshot_envOk_not_raised (s : VideoStreamState) :
    (video_snapshot envOk s).2 ≠ SnapResult.raised := by
  by_cases h : s.video_in_progress <;>
    simp [video_snapshot, h, envOk, queueObjectIsTruthy]

/-- Claim C8 counterexample: the message loop of `CameraInstance.run`
keeps only the last message's motion-indicator value, so the batch
`["true", "false"]`, which contains `"true"`, triggers neither the motion
message nor clip extraction; a batch whose value is `"false"` indeed
triggers nothing. -/
theorem batch_containing_true_not_triggering :
    "true" ∈ ["true", "false"]
      ∧ (processBatch envOk 1 (some initState) ["true", "false"]).2 = []
      ∧ (processBatch envOk 1 (some initState) ["false"]).2 = [] := by decide

/-- Claim C8 as amended: triggering is decided by the last message's
motion-indicator value (`mess_tree`).  When it is not `"true"` — even if an
earlier message in the batch was `"true"` — nothing is sent; when it is
`"true"`, the motion message is sent, then, when a media stream is
configured, `video_snapshot` runs and its result is passed to
`send_video`. -/
theorem batch_trigger_last_value (cid : Nat) (batch : List String)
    (s : VideoStreamState) :
    (messTree batch ≠ "true" →
        (processBatch envOk cid (some s) batch).2 = []
          ∧ (processBatch envOk cid none batch).2 = [])
      ∧ (messTree batch = "true" →
          (processBatch envOk cid (some s) batch).2
              = [.sendMessage cid,
                 .sendVideo (clipOf (video_snapshot envOk s).2)]
            ∧ (processBatch envOk cid none batch).2 = [.sendMessage cid]) := by
  constructor
  · intro h
    constructor <;> simp [processBatch, h]
  · intro h
    refine ⟨?_, by simp [processBatch, h]⟩
    rcases hr : (video_snapshot envOk s).2 with _ | c
    · simp [processBatch, h, hr]
    · simp [processBatch, h, hr]
    · exact absurd hr (video_snapshot_envOk_not_raised s)

/-- Witness for the amended C8 at the batch `["false", "true"]`. -/
theorem batch_trigger_last_value_witness :
    messTree ["false", "true"] = "true"
      ∧ (processBatch envOk 1 (some initState) ["false", "true"]).2
          = [.sendMessage 1,
             .sendVideo (clipOf (video_snapshot envOk initState).2)] :=
  ⟨rfl, ((batch_trigger_last_value 1 ["false", "true"] initState).2 rfl).1⟩

/- The subscription lifecycle claims. -/

theorem renewModes_absolute (now interval : Int) (dev : DeviceState)
    (h : dev.usesAbsoluteTime = true) :
    ∀ n, ∀ m ∈ renewModes dev now interval n, m = TsMode.absolute := by
  intro n
  induction n with
  | zero => simp [renewModes]
  | succ k ih =>
    intro m hm
    simp only [renewModes, managerRenew, getNextTerminationTime, h,
      if_true] at hm
    rcases List.mem_cons.mp hm with rfl | hm'
    · rfl
    · exact ih m hm'

/-- Claim C9: when the echoed termination time is inconsistent with
`currentTime + interval` beyond the tolerance, `start` issues exactly one
corrective renewal with an absolute termination timestamp and flags the
device, after which every subsequent renewal uses absolute timestamps;
when the times are consistent, no corrective renewal is issued. -/
theorem start_corrective_renewal (tol interval now ct tt : Int)
    (dev0 : DeviceState) (h0 : dev0.usesAbsoluteTime = false) :
    (hasBrokenRelativeTime tol interval ct tt = true →
        (managerStart tol dev0 interval now ct tt).correctiveRenewals
            = [(.absolute, now + interval)]
          ∧ (managerStart tol dev0 interval now ct tt).dev.usesAbsoluteTime
              = true
          ∧ ∀ n, ∀ m ∈ renewModes
                (managerStart tol dev0 interval now ct tt).dev now interval n,
              m = TsMode.absolute)
      ∧ (hasBrokenRelativeTime tol interval ct tt = false →
          (managerStart tol dev0 interval now ct tt).correctiveRenewals = []
            ∧ (managerStart tol dev0 interval now ct tt).dev.usesAbsoluteTime
                = false) := by
  constructor
  · intro hb
    have hdev : (managerStart tol dev0 interval now ct tt).dev.usesAbsoluteTime
        = true := by
      simp [managerStart, deviceCheckBroken, hb]
    refine ⟨?_, hdev, renewModes_absolute now interval _ hdev⟩
    simp [managerStart, deviceCheckBroken, getNextTerminationTime, hb, h0]
  · intro hb
    simp [managerStart, deviceCheckBroken, hb, h0]

/-- Witness for C9: tolerance 5, interval 600, device clock 1000, echoed
termination 2000 (off by 400), renewal issued at absolute time 50 + 600. -/
theorem start_corrective_renewal_witness :
    hasBrokenRelativeTime 5 600 1000 2000 = true
      ∧ ((managerStart 5 ⟨false⟩ 600 50 1000 2000).correctiveRenewals
            = [(.absolute, 50 + 600)]
          ∧ (managerStart 5 ⟨false⟩ 600 50 1000 2000).dev.usesAbsoluteTime
              = true
          ∧ ∀ n, ∀ m ∈ renewModes
                (managerStart 5 ⟨false⟩ 600 50 1000 2000).dev 50 600 n,
              m = TsMode.absolute) :=
  ⟨by decide,
    (start_corrective_renewal 5 600 50 1000 2000 ⟨false⟩ rfl).1 (by decide)⟩

/-- Claim C10: when a motion event fires while an extraction is already in
flight, `video_snapshot` returns `None`, and `CameraInstance.run` passes
that `None` straight to `send_video` without a check, unlike
`TelegramBot.grabvideo`, which checks and sends nothing. -/
theorem inflight_none_forwarded (s : VideoStreamState)
    (h : s.video_in_progress = true) :
    clipOf (video_snapshot envOk s).2 = none
      ∧ (processBatch envOk 1 (some s) ["true"]).2
          = [.sendMessage 1, .sendVideo none]
      ∧ grabvideoCalls envOk [s] = [] := by
  have hsnap : video_snapshot envOk s = (s, .noStart) := by
    simp [video_snapshot, h]
  have hmt : messTree ["true"] = "true" := rfl
  refine ⟨by rw [hsnap]; rfl, ?_, ?_⟩
  · simp [processBatch, hmt, hsnap, clipOf]
  · simp [grabvideoCalls, hsnap, clipOf]

/-- Witness for C10 at the concrete in-flight state `busyState`. -/
theorem inflight_none_forwarded_witness :
    busyState.video_in_progress = true
      ∧ (clipOf (video_snapshot envOk busyState).2 = none
          ∧ (processBatch envOk 1 (some busyState) ["true"]).2
              = [.sendMessage 1, .sendVideo none]
          ∧ grabvideoCalls envOk [busyState] = []) :=
  ⟨rfl, inflight_none_forwarded busyState rfl⟩

end OnvifBot
